import Mathlib

/-!
Verification development for the STARTTLS self-test service
(selftest_server.py and set_mode.py).

The protocol engines are modeled as executable functions over an abstract
line-oriented wire: a connection is a list of input lines (running out of
input models a read timeout or peer EOF, which the code treats identically),
and a run produces the list of emitted events, the list of reply payloads
written to the socket, the final connection state, and the input lines left
unread when the handler returned.  Bytes are modeled as strings of
characters; the TLS handshake outcome is an explicit boolean oracle.
Wall-clock timestamps (the ts field of events) are metadata supplied by the
clock and are not modeled.
-/

/-! ## Python string primitives

Models of the Python built-ins used by the source, defined over the
character list underlying a string so that they are easy to reason about.
-/

/-- The whitespace class of the Python bytes methods: space, tab, carriage
return, newline, vertical tab (11) and form feed (12).  The str methods of
Python additionally strip non-ASCII unicode whitespace, which does not
occur in the byte-derived strings of this model. -/
def pyWs (c : Char) : Bool :=
  c.isWhitespace || c = Char.ofNat 11 || c = Char.ofNat 12

/-- Model of the Python strip method (whitespace on both ends). -/
def pyStrip (s : String) : String :=
  ⟨((s.data.dropWhile pyWs).reverse.dropWhile pyWs).reverse⟩

/-- Model of the Python bytes.upper / str.upper method (ASCII case map,
matching Char.toUpper). -/
def pyUpper (s : String) : String :=
  ⟨s.data.map Char.toUpper⟩

/-- Model of the Python bytes.startswith method. -/
def pyStartsWith (s pre : String) : Bool :=
  pre.data.isPrefixOf s.data

/-- Helper for pySplitWs: words of a character list, splitting on runs of
whitespace and dropping empty pieces, exactly like Python str.split(). -/
def pySplitWsAux (cur : List Char) : List Char → List (List Char)
  | [] => if cur = [] then [] else [cur.reverse]
  | c :: rest =>
    if pyWs c then
      if cur = [] then pySplitWsAux [] rest
      else cur.reverse :: pySplitWsAux [] rest
    else pySplitWsAux (c :: cur) rest

/-- Model of the Python str.split() / bytes.split() method with no
separator: split on whitespace runs, dropping empty pieces. -/
def pySplitWs (s : String) : List String :=
  (pySplitWsAux [] s.data).map (fun l => ⟨l⟩)

/-- Model of the Python split(maxsplit=1) method with no separator: strip
leading whitespace, take the first whitespace-free word, then the remainder
with its leading whitespace stripped; empty pieces are dropped. -/
def pySplit1 (s : String) : List String :=
  let l := s.data.dropWhile pyWs
  if l = [] then []
  else
    let w := l.takeWhile (fun c => !(pyWs c))
    let r := (l.dropWhile (fun c => !(pyWs c))).dropWhile pyWs
    if r = [] then [⟨w⟩] else [⟨w⟩, ⟨r⟩]

/-- Model of the Python str.split(sep) method with a one-character
separator: always returns one more piece than there are separators. -/
def splitOnChar (sep : Char) : List Char → List (List Char)
  | [] => [[]]
  | c :: rest =>
    if c = sep then [] :: splitOnChar sep rest
    else
      match splitOnChar sep rest with
      | [] => [[c]]
      | h :: t => (c :: h) :: t

/-- Truthiness of an optional string in Python: None and the empty string
are falsy, any other string is truthy. -/
def truthyStr : Option String → Bool
  | none => false
  | some s => s ≠ ""

/-! ## Base64 decoding

Model of base64.b64decode(b, validate=False) followed by a UTF-8 decode
with errors="replace", as wrapped by the helper b64decode to text in the
source.  With validate=False CPython runs the non-strict a2b loop of
binascii: characters outside the base64 alphabet are skipped; output
bytes are emitted incrementally as each symbol after the first of a quad
arrives; a pad character is ignored while fewer than two symbols of the
current quad have been seen, and otherwise counts toward finishing the
quad, ending the decode when it does; input ending inside a quad is the
padding error, which the source helper turns into None.  The byte-to-text
step maps each byte below 128 to the corresponding ASCII character and
any other byte to the replacement character, modeling errors="replace"
for the single-byte case (all inputs considered in this development are
ASCII).
-/

/-- Value of a base64 alphabet character, none for pad or other characters. -/
def b64Index (c : Char) : Option Nat :=
  if 'A' ≤ c ∧ c ≤ 'Z' then some (c.toNat - 65)
  else if 'a' ≤ c ∧ c ≤ 'z' then some (c.toNat - 97 + 26)
  else if '0' ≤ c ∧ c ≤ '9' then some (c.toNat - 48 + 52)
  else if c = '+' then some 62
  else if c = '/' then some 63
  else none

/-- The non-strict a2b base64 loop of CPython binascii: the state is the
position in the current quad (0 to 3), the pending bits, the count of
pads seen for the current quad, and the bytes emitted so far in reverse
order. -/
def a2bBase64Aux : List Char → Nat → Nat → Nat → List Nat → Option (List Nat)
  | [], quadPos, _, _, out => if quadPos ≠ 0 then none else some out.reverse
  | c :: rest, quadPos, leftchar, pads, out =>
    if c = '=' then
      if 2 ≤ quadPos then
        if 4 ≤ quadPos + (pads + 1) then some out.reverse
        else a2bBase64Aux rest quadPos leftchar (pads + 1) out
      else a2bBase64Aux rest quadPos leftchar pads out
    else
      match b64Index c with
      | none => a2bBase64Aux rest quadPos leftchar pads out
      | some v =>
        match quadPos with
        | 0 => a2bBase64Aux rest 1 v 0 out
        | 1 => a2bBase64Aux rest 2 (v % 16) 0 ((leftchar * 4 + v / 16) :: out)
        | 2 => a2bBase64Aux rest 3 (v % 4) 0 ((leftchar * 16 + v / 4) :: out)
        | _ => a2bBase64Aux rest 0 0 0 ((leftchar * 64 + v) :: out)

/-- Model of the source helper that base64-decodes a payload to text,
returning none on a decode error (the source catches the exception). -/
def b64decode_to_text (s : String) : Option String :=
  match a2bBase64Aux s.data 0 0 0 [] with
  | none => none
  | some bytes =>
    some ⟨bytes.map (fun b => if b < 128 then Char.ofNat b else Char.ofNat 0xFFFD)⟩

/-! ## Username and session parsing -/

/-- Model of the source session extraction: strip the username, keep only
the part before the first at sign if one is present, then match the
anchored pattern test-<6 to 64 alphanumeric characters>.  As in a Python
re match, the closing anchor also matches just before one newline at the
very end of the matched text, so test-<code> followed by a single final
newline matches as well. -/
def extract_session_from_username (username : String) : Option String :=
  let u := pyStrip username
  let u2 : String := if '@' ∈ u.data then ⟨u.data.takeWhile (fun c => c != '@')⟩ else u
  match u2.data with
  | 't' :: 'e' :: 's' :: 't' :: '-' :: rest =>
    let code := if rest.getLast? = some '\n' then rest.dropLast else rest
    if 6 ≤ code.length ∧ code.length ≤ 64 ∧ code.all Char.isAlphanum then some ⟨code⟩
    else none
  | _ => none

/-- Model of the source strip-quotes helper for IMAP LOGIN usernames. -/
def strip_quotes (s : String) : String :=
  let t := pyStrip s
  match t.data with
  | [] => t
  | c :: rest =>
    if 2 ≤ t.data.length ∧
        ((c = '"' ∧ t.data.getLast? = some '"') ∨
         (c = Char.ofNat 39 ∧ t.data.getLast? = some (Char.ofNat 39))) then
      ⟨rest.dropLast⟩
    else t

/-- Model of the RFC 4616 username extraction from an AUTH PLAIN payload:
decode the base64 payload, split on NUL, and take the authcid part. -/
def smtp_username_from_auth_plain (b64 : String) : Option String :=
  match b64decode_to_text b64 with
  | none => none
  | some decoded =>
    let parts := splitOnChar (Char.ofNat 0) decoded.data
    if 3 ≤ parts.length then some ⟨parts.getD 1 []⟩
    else if parts.length = 2 then some ⟨parts.getD 0 []⟩
    else none

/-! ## Mode store and mode resolution -/

/-- One override entry of the mode store file; every field is optional,
mirroring the JSON dictionary access with defaults in the source. -/
structure Override where
  ip : Option String := none
  mode : Option String := none
  expires : Option Int := none
  session : Option String := none
deriving Repr, DecidableEq

/-- The expiry of an override as the source reads it: int(o.get("expires", 0)). -/
def Override.expInt (o : Override) : Int :=
  o.expires.getD 0

/-- The parsed mode store file: a default mode and a list of overrides. -/
structure StoreState where
  default_mode : Option String := none
  overrides : List Override := []
deriving Repr, DecidableEq

/-- The decision returned by mode resolution, mirroring the frozen
dataclass of the source. -/
structure ModeDecision where
  mode : String
  source : String
  session : Option String := none
deriving Repr, DecidableEq

/-- The overrides surviving lazy expiry at the given time: an entry is
dropped exactly when its expiry is truthy (nonzero) and in the past. -/
def keptOverrides (data : StoreState) (now : Int) : List Override :=
  data.overrides.filter (fun o => decide ¬(o.expInt ≠ 0 ∧ o.expInt < now))

/-- The decision part of mode resolution: the first surviving override
whose ip equals the client ip wins, otherwise the default mode applies. -/
def resolveDecision (data : StoreState) (now : Int) (ip : String) : ModeDecision :=
  match (keptOverrides data now).find? (fun o => o.ip == some ip) with
  | some o => { mode := o.mode.getD "baseline", source := "override:" ++ ip, session := o.session }
  | none => { mode := data.default_mode.getD "baseline", source := "default", session := none }

/-- Model of the source mode resolver: prune expired overrides, persist the
pruned list when it changed, and return the decision.  The persistence step
is modeled by the saveOk oracle; the source has no exception handler around
the save, so a failing save propagates out of resolution, modeled as error. -/
def decide_mode (data : StoreState) (now : Int) (ip : String) (saveOk : Bool) :
    Except Unit (ModeDecision × StoreState) :=
  let kept := keptOverrides data now
  if kept ≠ data.overrides ∧ saveOk = false then .error ()
  else .ok (resolveDecision data now ip, { data with overrides := kept })

/-- Model of the override-writing branch of the set-mode utility: drop
overrides already expired at write time, remove prior entries for the same
ip, and append the new assignment with expiry now plus ttl. -/
def setModeOverride (data : StoreState) (now : Int) (ip : String) (mode : String) (ttl : Int) :
    StoreState :=
  let ov1 := data.overrides.filter (fun o => decide (now ≤ o.expInt))
  let ov2 := ov1.filter (fun o => o.ip != some ip)
  { data with overrides := ov2 ++ [{ ip := some ip, mode := some mode, expires := some (now + ttl), session := none }] }

/-- Model of the implicit-TLS blocking predicate of the source. -/
def should_block_implicit_tls (mode : String) (port : Nat) : Bool :=
  if !(mode = "t1" || mode = "t2" || mode = "t3" || mode = "t4") then false
  else port = 465 || port = 993

/-! ## Protocol events

One structured log line of the event log.  A field of type Option (Option
String) distinguishes a key that is absent from the emitted dictionary
(none) from a key that is present with a null value (some none); the
dictionaries emitted by the source differ in which keys they carry, and the
model reproduces each dictionary literal key for key.  The wall-clock ts
key is not modeled.
-/

structure Event where
  proto : String
  clientIp : String
  mode : String
  modeSource : String
  tls : Bool
  serverPort : Option Nat
  kind : String
  overrideSession : Option (Option String) := none
  session : Option (Option String) := none
  reason : Option String := none
  result : Option String := none
  starttlsAdvertised : Option Bool := none
  dataBytes : Option Nat := none
  username : Option (Option String) := none
  usernameSession : Option (Option String) := none
  authMech : Option (Option String) := none
  payload : Option String := none
  cmdName : Option String := none
deriving Repr, DecidableEq

/-- The keys shared by every event dictionary of the given protocol. -/
def evBase (proto ci : String) (dec : ModeDecision) (tls : Bool) (port : Nat) (kind : String) : Event :=
  { proto := proto, clientIp := ci, mode := dec.mode, modeSource := dec.source,
    tls := tls, serverPort := some port, kind := kind }

/-- Connect event (both protocols). -/
def connectEv (proto ci : String) (dec : ModeDecision) (tls : Bool) (port : Nat) : Event :=
  { evBase proto ci dec tls port "connect" with
    overrideSession := some dec.session, session := some none }

/-- Disconnect event as emitted by the command loops and drop branches. -/
def disconnectEv (proto ci : String) (dec : ModeDecision) (tls : Bool) (port : Nat) : Event :=
  { evBase proto ci dec tls port "disconnect" with
    overrideSession := some dec.session, session := some none }

/-- Disconnect event emitted when a disruption mode connection arrives on
an implicit-TLS port and is blocked immediately after accept. -/
def implicitBlockedEv (proto ci : String) (dec : ModeDecision) (tls : Bool) (port : Nat) : Event :=
  { evBase proto ci dec tls port "disconnect" with
    overrideSession := some dec.session, session := some none,
    reason := some "implicit_tls_blocked" }

/-- STARTTLS event with its result field (both protocols). -/
def starttlsEv (proto ci : String) (dec : ModeDecision) (tls : Bool) (port : Nat) (res : String) : Event :=
  { evBase proto ci dec tls port "starttls" with
    overrideSession := some dec.session, session := some none, result := some res }

/-- Disrupt event emitted under mode t4 right after a successful handshake. -/
def disruptEv (proto ci : String) (dec : ModeDecision) (tls : Bool) (port : Nat) : Event :=
  { evBase proto ci dec tls port "disrupt" with
    overrideSession := some dec.session, session := some none,
    reason := some "after_handshake", payload := some "NOOP" }

/-- Session mismatch event (both protocols, all three auth flows). -/
def mismatchEv (proto ci : String) (dec : ModeDecision) (tls : Bool) (port : Nat)
    (username : Option String) (usernameSession : Option String) : Event :=
  { evBase proto ci dec tls port "session_mismatch" with
    overrideSession := some dec.session, session := some none,
    username := some username, usernameSession := some usernameSession }

/-- SMTP ehlo event with the advertisement flag. -/
def smtpEhloEv (ci : String) (dec : ModeDecision) (tls : Bool) (port : Nat) (adv : Bool) : Event :=
  { evBase "smtp" ci dec tls port "ehlo" with
    overrideSession := some dec.session, session := some none,
    starttlsAdvertised := some adv }

/-- SMTP data-end event; the source dictionary carries no server port and
no session keys here. -/
def smtpDataEndEv (ci : String) (dec : ModeDecision) (tls : Bool) (bytes : Nat) : Event :=
  { proto := "smtp", clientIp := ci, mode := dec.mode, modeSource := dec.source,
    tls := tls, serverPort := none, kind := "data_end", dataBytes := some bytes }

/-- SMTP auth event for the AUTH LOGIN continuation flow. -/
def smtpAuthLoginEv (ci : String) (dec : ModeDecision) (tls : Bool) (port : Nat)
    (username : String) (usernameSession : Option String) : Event :=
  { evBase "smtp" ci dec tls port "auth_login" with
    username := some (some username), session := some usernameSession,
    usernameSession := some usernameSession }

/-- SMTP drop event emitted when mode t4 tears the connection down after a
successful AUTH LOGIN over TLS. -/
def smtpDropEv (ci : String) (dec : ModeDecision) (tls : Bool) (port : Nat) : Event :=
  { evBase "smtp" ci dec tls port "drop" with reason := some "after_auth" }

/-- SMTP auth event for the AUTH command flow (PLAIN inline, PLAIN
continuation, or an unknown mechanism). -/
def smtpAuthCommandEv (ci : String) (dec : ModeDecision) (tls : Bool) (port : Nat)
    (mechU : String) (username : Option String) (usernameSession : Option String) : Event :=
  { evBase "smtp" ci dec tls port "auth_command" with
    authMech := some (if mechU = "" then none else some mechU),
    username := some username, session := some usernameSession,
    usernameSession := some usernameSession }

/-- IMAP capability event with the advertisement flag. -/
def imapCapabilityEv (ci : String) (dec : ModeDecision) (tls : Bool) (port : Nat) (adv : Bool) : Event :=
  { evBase "imap" ci dec tls port "capability" with
    overrideSession := some dec.session, session := some none,
    starttlsAdvertised := some adv }

/-- IMAP generic logged command event. -/
def imapCommandEv (ci : String) (dec : ModeDecision) (tls : Bool) (port : Nat) (name : String) : Event :=
  { evBase "imap" ci dec tls port "command" with cmdName := some name }

/-- IMAP login event. -/
def imapLoginEv (ci : String) (dec : ModeDecision) (tls : Bool) (port : Nat)
    (username : Option String) (usernameSession : Option String) : Event :=
  { evBase "imap" ci dec tls port "login_command" with
    username := some username, session := some usernameSession,
    usernameSession := some usernameSession }

/-! ## SMTP engine -/

/-- The command classification of the SMTP loop: the chain of startswith
tests on the upper-cased line, in source order. -/
inductive SmtpCmd where
  | quit | rset | noop | ehlo | starttls | mailFrom | rcptTo | dataCmd | auth | other
deriving Repr, DecidableEq

/-- Classify one SMTP command line exactly as the source if-chain does. -/
def classifySmtp (line : String) : SmtpCmd :=
  let u := pyUpper line
  if pyStartsWith u "QUIT" then .quit
  else if pyStartsWith u "RSET" then .rset
  else if pyStartsWith u "NOOP" then .noop
  else if pyStartsWith u "EHLO" || pyStartsWith u "HELO" then .ehlo
  else if pyStartsWith u "STARTTLS" then .starttls
  else if pyStartsWith u "MAIL FROM:" then .mailFrom
  else if pyStartsWith u "RCPT TO:" then .rcptTo
  else if pyStartsWith u "DATA" then .dataCmd
  else if pyStartsWith u "AUTH" then .auth
  else .other

/-- Per-connection mutable state of the SMTP handler. -/
structure SmtpConn where
  tls : Bool
  upgraded : Bool := false
  pendingAuthLogin : Bool := false
  pendingUser : Option String := none
  inData : Bool := false
  dataBytes : Nat := 0
  mailFrom : Bool := false
  rcptCount : Nat := 0
deriving Repr, DecidableEq

/-- Result of running the SMTP handler: emitted events, reply payloads
written to the socket, final connection state, and the input lines left
unread when the handler returned. -/
structure SmtpResult where
  events : List Event
  sent : List String
  final : SmtpConn
  leftover : List String
deriving Repr, DecidableEq

/-- Prepend the events and replies of one handled command to the result of
the rest of the run. -/
def SmtpResult.push (evs : List Event) (snt : List String) (r : SmtpResult) : SmtpResult :=
  { r with events := evs ++ r.events, sent := snt ++ r.sent }

/-- The SMTP capability lines advertised in the EHLO reply. -/
def smtpCapsList (adv : Bool) : List String :=
  ["250-selftest", "250-PIPELINING", "250-SIZE 35882577", "250-AUTH PLAIN LOGIN"] ++
    (if adv then ["250-STARTTLS"] else []) ++ ["250 HELP"]

/-- The EHLO reply payload: the capability lines joined with CRLF. -/
def smtpCapsBlob (adv : Bool) : String :=
  String.intercalate "\r\n" (smtpCapsList adv) ++ "\r\n"

/-- The session extracted from a truthy username, as the source conditional
expression computes it. -/
def sessionOfUsername (username : String) : Option String :=
  if username = "" then none else extract_session_from_username username

/-- The events of the common tail of the AUTH command flow: an optional
session-mismatch event followed by the auth event. -/
def smtpAuthEvents (ci : String) (dec : ModeDecision) (tls : Bool) (port : Nat)
    (username : Option String) (mechU : String) : List Event :=
  let usernameSession := match username with
    | none => none
    | some u => sessionOfUsername u
  (if truthyStr dec.session && truthyStr usernameSession && dec.session != usernameSession
   then [mismatchEv "smtp" ci dec tls port username usernameSession] else []) ++
  [smtpAuthCommandEv ci dec tls port mechU username usernameSession]

/-- Outcome of handling one SMTP input line: the loop continues with a new
state, the handler returns, or an AUTH PLAIN continuation awaits the
payload on the next line (the source sends the empty 334 challenge and
issues one more blocking read inside the AUTH branch). -/
inductive SmtpStep where
  | cont (evs : List Event) (snt : List String) (st : SmtpConn)
  | stop (evs : List Event) (snt : List String) (st : SmtpConn)
  | awaitPlain (mechU : String)
deriving Repr, DecidableEq

/-- One line consumed while in DATA state: the terminating dot logs the
byte count and replies, any other line only counts bytes (content is
neither inspected nor logged). -/
def smtpDataLine (ci : String) (dec : ModeDecision) (st : SmtpConn) (line : String) : SmtpStep :=
  if line = "." then
    .cont [smtpDataEndEv ci dec st.tls st.dataBytes] ["250 2.0.0 OK\r\n"]
      { st with inData := false, dataBytes := 0 }
  else
    .cont [] [] { st with dataBytes := st.dataBytes + line.data.length + 2 }

/-- One line consumed while an AUTH LOGIN exchange is pending: the first
continuation line is the base64 username, the second is the password,
which is decoded only to advance the exchange and is otherwise unused.
After the success reply, mode t4 with TLS active tears the connection
down with a drop event. -/
def smtpPendingLine (ci : String) (dec : ModeDecision) (port : Nat) (st : SmtpConn)
    (line : String) : SmtpStep :=
  match st.pendingUser with
  | none =>
    let txt := b64decode_to_text (pyStrip line)
    .cont [] ["334 UGFzc3dvcmQ6\r\n"] { st with pendingUser := some (txt.getD "") }
  | some username =>
    let usernameSession := sessionOfUsername username
    let evs :=
      (if truthyStr dec.session && truthyStr usernameSession && dec.session != usernameSession
       then [mismatchEv "smtp" ci dec st.tls port (some username) usernameSession] else []) ++
      [smtpAuthLoginEv ci dec st.tls port username usernameSession]
    if dec.mode = "t4" && st.tls then
      .stop (evs ++ [smtpDropEv ci dec st.tls port]) ["235 2.7.0 Authentication successful\r\n"] st
    else
      .cont evs ["235 2.7.0 Authentication successful\r\n"]
        { st with pendingAuthLogin := false, pendingUser := none }

/-- The STARTTLS branch of the SMTP loop. -/
def smtpStarttlsLine (ci : String) (dec : ModeDecision) (port : Nat) (hsOk : Bool)
    (st : SmtpConn) : SmtpStep :=
  if st.tls then
    .cont [starttlsEv "smtp" ci dec st.tls port "already_tls"]
      ["454 TLS not available due to temporary reason\r\n"] st
  else if dec.mode = "t3" then
    .cont [starttlsEv "smtp" ci dec st.tls port "refused"]
      ["454 TLS not available due to temporary reason\r\n"] st
  else if dec.mode = "t2" then
    .stop [starttlsEv "smtp" ci dec st.tls port "drop_after_ready", disconnectEv "smtp" ci dec st.tls port]
      ["220 2.0.0 Ready to start TLS\r\n"] st
  else if !hsOk then
    .stop [starttlsEv "smtp" ci dec st.tls port "ok", starttlsEv "smtp" ci dec st.tls port "wrap_failed"]
      ["220 2.0.0 Ready to start TLS\r\n"] st
  else
    let st2 := { st with tls := true, upgraded := true }
    if dec.mode = "t4" then
      .stop [starttlsEv "smtp" ci dec st.tls port "ok", disruptEv "smtp" ci dec true port,
             disconnectEv "smtp" ci dec true port]
        ["220 2.0.0 Ready to start TLS\r\n", "NOOP\r\n"] st2
    else
      .cont [starttlsEv "smtp" ci dec st.tls port "ok"] ["220 2.0.0 Ready to start TLS\r\n"] st2

/-- The AUTH branch of the SMTP loop: split the line, dispatch on the
mechanism; PLAIN with an inline payload or an unknown mechanism completes
immediately, PLAIN without a payload awaits the continuation line, LOGIN
starts the two-step exchange. -/
def smtpAuthLine (ci : String) (dec : ModeDecision) (port : Nat) (st : SmtpConn)
    (line : String) : SmtpStep :=
  let parts := pySplitWs line
  let mechU := pyUpper (parts.getD 1 "")
  if mechU = "PLAIN" then
    if 3 ≤ parts.length then
      .cont (smtpAuthEvents ci dec st.tls port (smtp_username_from_auth_plain (parts.getD 2 "")) mechU)
        ["235 2.7.0 Authentication successful\r\n"] st
    else .awaitPlain mechU
  else if mechU = "LOGIN" then
    .cont [] ["334 VXNlcm5hbWU6\r\n"] { st with pendingAuthLogin := true, pendingUser := none }
  else
    .cont (smtpAuthEvents ci dec st.tls port none mechU)
      ["235 2.7.0 Authentication successful\r\n"] st

/-- One SMTP command-loop line outside the DATA and pending-AUTH states. -/
def smtpCommandLine (ci : String) (dec : ModeDecision) (port : Nat) (hsOk : Bool)
    (st : SmtpConn) (line : String) : SmtpStep :=
  match classifySmtp line with
  | .quit => .stop [] ["221 2.0.0 Bye\r\n"] st
  | .rset =>
    .cont [] ["250 2.0.0 OK\r\n"]
      { st with mailFrom := false, rcptCount := 0, inData := false, dataBytes := 0 }
  | .noop => .cont [] ["250 2.0.0 OK\r\n"] st
  | .ehlo =>
    let adv := !st.tls && dec.mode != "t1"
    .cont [smtpEhloEv ci dec st.tls port adv] [smtpCapsBlob adv] st
  | .starttls => smtpStarttlsLine ci dec port hsOk st
  | .mailFrom => .cont [] ["250 2.1.0 OK\r\n"] { st with mailFrom := true, rcptCount := 0 }
  | .rcptTo =>
    if !st.mailFrom then .cont [] ["503 5.5.1 Bad sequence of commands\r\n"] st
    else .cont [] ["250 2.1.5 OK\r\n"] { st with rcptCount := st.rcptCount + 1 }
  | .dataCmd =>
    if !st.mailFrom || st.rcptCount = 0 then .cont [] ["503 5.5.1 Bad sequence of commands\r\n"] st
    else .cont [] ["354 End data with <CR><LF>.<CR><LF>\r\n"] { st with inData := true, dataBytes := 0 }
  | .auth => smtpAuthLine ci dec port st line
  | .other => .cont [] ["250 OK\r\n"] st

/-- Handle one SMTP input line: DATA state first, then a pending AUTH
LOGIN exchange, then ordinary command dispatch, as in the source loop. -/
def smtpStep (ci : String) (dec : ModeDecision) (port : Nat) (hsOk : Bool)
    (st : SmtpConn) (line : String) : SmtpStep :=
  if st.inData then smtpDataLine ci dec st line
  else if st.pendingAuthLogin then smtpPendingLine ci dec port st line
  else smtpCommandLine ci dec port hsOk st line

/-- The per-connection SMTP command loop, recursing over the remaining
input lines.  Running out of input models a read timeout or EOF; the
AUTH PLAIN continuation performs its extra read inline, and running out of
input there returns without a disconnect event, as in the source. -/
def smtpLoop (ci : String) (dec : ModeDecision) (port : Nat) (hsOk : Bool) :
    SmtpConn → List String → SmtpResult
  | st, [] => ⟨[disconnectEv "smtp" ci dec st.tls port], [], st, []⟩
  | st, line :: rest =>
    match smtpStep ci dec port hsOk st line with
    | .cont evs snt st2 => SmtpResult.push evs snt (smtpLoop ci dec port hsOk st2 rest)
    | .stop evs snt st2 => ⟨evs, snt, st2, rest⟩
    | .awaitPlain mechU =>
      match rest with
      | [] => ⟨[], ["334 \r\n"], st, []⟩
      | resp :: rest2 =>
        SmtpResult.push [] ["334 \r\n"]
          (SmtpResult.push
            (smtpAuthEvents ci dec st.tls port (smtp_username_from_auth_plain (pyStrip resp)) mechU)
            ["235 2.7.0 Authentication successful\r\n"]
            (smtpLoop ci dec port hsOk st rest2))

/-- The whole SMTP handler: implicit-TLS blocking, connect event, greeting,
then the command loop. -/
def smtpRun (ci : String) (dec : ModeDecision) (port : Nat) (hsOk : Bool) (tls0 : Bool)
    (input : List String) : SmtpResult :=
  if tls0 && should_block_implicit_tls dec.mode port then
    ⟨[implicitBlockedEv "smtp" ci dec tls0 port], [], { tls := tls0 }, input⟩
  else
    SmtpResult.push [connectEv "smtp" ci dec tls0 port] ["220 selftest ESMTP\r\n"]
      (smtpLoop ci dec port hsOk { tls := tls0 } input)

/-! ## IMAP engine -/

/-- The command classification of the IMAP loop: the chain of startswith
tests on the upper-cased command part, in source order. -/
inductive ImapCmd where
  | logout | capability | starttls | simple | login | other
deriving Repr, DecidableEq

/-- Classify one upper-cased IMAP command exactly as the source if-chain does. -/
def classifyImap (ucmd : String) : ImapCmd :=
  if pyStartsWith ucmd "LOGOUT" then .logout
  else if pyStartsWith ucmd "CAPABILITY" then .capability
  else if pyStartsWith ucmd "STARTTLS" then .starttls
  else if pyStartsWith ucmd "NOOP" || pyStartsWith ucmd "CHECK" || pyStartsWith ucmd "STATUS" ||
      pyStartsWith ucmd "SELECT" || pyStartsWith ucmd "EXAMINE" then .simple
  else if pyStartsWith ucmd "LOGIN" then .login
  else .other

/-- Per-connection mutable state of the IMAP handler. -/
structure ImapConn where
  tls : Bool
  upgraded : Bool := false
deriving Repr, DecidableEq

/-- Outcome of handling one IMAP input line: either the loop continues with
a new state, or the handler returns. -/
inductive ImapStep where
  | cont (evs : List Event) (snt : List String) (st : ImapConn)
  | stop (evs : List Event) (snt : List String) (st : ImapConn)
deriving Repr, DecidableEq

/-- The IMAP capability tokens advertised in the CAPABILITY reply. -/
def imapCapsList (adv : Bool) : List String :=
  ["IMAP4rev1", "AUTH=PLAIN", "AUTH=LOGIN"] ++ (if adv then ["STARTTLS"] else [])

/-- The untagged CAPABILITY reply payload. -/
def imapCapsBlob (adv : Bool) : String :=
  "* CAPABILITY " ++ String.intercalate " " (imapCapsList adv) ++ "\r\n"

/-- The STARTTLS branch of the IMAP loop; unlike SMTP, mode t1 also
refuses the upgrade, and a failing handshake returns with no event. -/
def imapStarttlsLine (ci : String) (dec : ModeDecision) (port : Nat) (hsOk : Bool)
    (st : ImapConn) (tag : String) : ImapStep :=
  if st.tls then
    .cont [starttlsEv "imap" ci dec st.tls port "already_tls"]
      [tag ++ " BAD STARTTLS not available\r\n"] st
  else if dec.mode = "t1" then
    .cont [starttlsEv "imap" ci dec st.tls port "refused"]
      [tag ++ " BAD STARTTLS not available\r\n"] st
  else if dec.mode = "t3" then
    .cont [starttlsEv "imap" ci dec st.tls port "refused"]
      [tag ++ " BAD STARTTLS not available\r\n"] st
  else if dec.mode = "t2" then
    .stop [starttlsEv "imap" ci dec st.tls port "drop_after_ok", disconnectEv "imap" ci dec st.tls port]
      [tag ++ " OK Begin TLS negotiation now\r\n"] st
  else if !hsOk then
    .stop [starttlsEv "imap" ci dec st.tls port "ok"]
      [tag ++ " OK Begin TLS negotiation now\r\n"] st
  else
    let st2 : ImapConn := { tls := true, upgraded := true }
    if dec.mode = "t4" then
      .stop [starttlsEv "imap" ci dec st.tls port "ok", disruptEv "imap" ci dec true port,
             disconnectEv "imap" ci dec true port]
        [tag ++ " OK Begin TLS negotiation now\r\n", "NOOP\r\n"] st2
    else
      .cont [starttlsEv "imap" ci dec st.tls port "ok"]
        [tag ++ " OK Begin TLS negotiation now\r\n"] st2

/-- The LOGIN branch of the IMAP loop: parse the username from the command
(quoted or bare token), never touching the password field, then emit the
optional mismatch event followed by the login event and reply success. -/
def imapLoginLine (ci : String) (dec : ModeDecision) (port : Nat) (st : ImapConn)
    (tag cmd : String) : ImapStep :=
  let restFields := (pySplit1 cmd).getD 1 ""
  let fields := pySplit1 restFields
  let username : Option String := match fields with
    | [] => none
    | f :: _ => some (strip_quotes f)
  let usernameSession := match username with
    | none => none
    | some u => sessionOfUsername u
  .cont
    ((if truthyStr dec.session && truthyStr usernameSession && dec.session != usernameSession
      then [mismatchEv "imap" ci dec st.tls port username usernameSession] else []) ++
     [imapLoginEv ci dec st.tls port username usernameSession])
    [tag ++ " OK Logged in\r\n"] st

/-- Handle one IMAP input line exactly as the source loop body does. -/
def imapStep (ci : String) (dec : ModeDecision) (port : Nat) (hsOk : Bool)
    (st : ImapConn) (line : String) : ImapStep :=
  match pySplit1 line with
  | [] => .cont [] [] st
  | tag :: rest1 =>
    let cmd := rest1.headD ""
    let ucmd := pyUpper cmd
    match classifyImap ucmd with
    | .logout => .stop [] ["* BYE Logging out\r\n", tag ++ " OK LOGOUT completed\r\n"] st
    | .capability =>
      let adv := !st.tls && dec.mode != "t1"
      .cont [imapCapabilityEv ci dec st.tls port adv]
        [imapCapsBlob adv, tag ++ " OK CAPABILITY completed\r\n"] st
    | .starttls => imapStarttlsLine ci dec port hsOk st tag
    | .simple =>
      let cmdName := (pySplit1 ucmd).headD ""
      .cont [imapCommandEv ci dec st.tls port cmdName] [tag ++ " OK\r\n"] st
    | .login => imapLoginLine ci dec port st tag cmd
    | .other => .cont [] [tag ++ " OK\r\n"] st

/-- Result of running the IMAP handler, with the same reading as the SMTP
result structure. -/
structure ImapResult where
  events : List Event
  sent : List String
  final : ImapConn
  leftover : List String
deriving Repr, DecidableEq

/-- Prepend the events and replies of one handled command to the result of
the rest of the run. -/
def ImapResult.push (evs : List Event) (snt : List String) (r : ImapResult) : ImapResult :=
  { r with events := evs ++ r.events, sent := snt ++ r.sent }

/-- The per-connection IMAP command loop. -/
def imapLoop (ci : String) (dec : ModeDecision) (port : Nat) (hsOk : Bool) :
    ImapConn → List String → ImapResult
  | st, [] => ⟨[disconnectEv "imap" ci dec st.tls port], [], st, []⟩
  | st, line :: rest =>
    match imapStep ci dec port hsOk st line with
    | .cont evs snt st2 => ImapResult.push evs snt (imapLoop ci dec port hsOk st2 rest)
    | .stop evs snt st2 => ⟨evs, snt, st2, rest⟩

/-- The whole IMAP handler: implicit-TLS blocking, connect event, greeting,
then the command loop. -/
def imapRun (ci : String) (dec : ModeDecision) (port : Nat) (hsOk : Bool) (tls0 : Bool)
    (input : List String) : ImapResult :=
  if tls0 && should_block_implicit_tls dec.mode port then
    ⟨[implicitBlockedEv "imap" ci dec tls0 port], [], { tls := tls0 }, input⟩
  else
    ImapResult.push [connectEv "imap" ci dec tls0 port] ["* OK selftest IMAP4rev1 Service Ready\r\n"]
      (imapLoop ci dec port hsOk { tls := tls0 } input)

/-! ## Helper lemmas -/

lemma splitOnChar_ne_nil (sep : Char) (l : List Char) : splitOnChar sep l ≠ [] := by
  induction l with
  | nil => simp [splitOnChar]
  | cons c rest ih =>
    rw [splitOnChar]
    split
    · simp
    · split
      · simp
      · simp

lemma splitOnChar_append (sep : Char) (xs ys : List Char) (h : ∀ c ∈ xs, c ≠ sep) :
    splitOnChar sep (xs ++ sep :: ys) = xs :: splitOnChar sep ys := by
  induction xs with
  | nil => simp [splitOnChar]
  | cons c t ih =>
    have hc : c ≠ sep := h c (by simp)
    have ht : ∀ x ∈ t, x ≠ sep := fun x hx => h x (by simp [hx])
    rw [List.cons_append, splitOnChar, if_neg hc, ih ht]

lemma find?_eq_some_of_mem_unique {α : Type} (p : α → Bool) (l : List α) (a : α)
    (ha : a ∈ l) (hpa : p a = true) (huniq : ∀ x ∈ l, p x = true → x = a) :
    l.find? p = some a := by
  induction l with
  | nil => cases ha
  | cons c t ih =>
    by_cases hc : p c = true
    · rw [List.find?_cons_of_pos _ hc]
      exact congrArg some (huniq c (by simp) hc)
    · rw [List.find?_cons_of_neg _ hc]
      rcases List.mem_cons.mp ha with rfl | hat
      · exact absurd hpa hc
      · exact ih hat (fun x hx => huniq x (by simp [hx]))

lemma takeWhile_append_not (p : Char → Bool) (xs : List Char) (y : Char) (ys : List Char)
    (hall : ∀ x ∈ xs, p x = true) (hy : p y = false) :
    (xs ++ y :: ys).takeWhile p = xs := by
  induction xs with
  | nil => simp [List.takeWhile_cons, hy]
  | cons c t ih =>
    rw [List.cons_append, List.takeWhile_cons_of_pos (hall c (by simp))]
    rw [ih (fun x hx => hall x (by simp [hx]))]

lemma dropWhile_append_not (p : Char → Bool) (xs : List Char) (y : Char) (ys : List Char)
    (hall : ∀ x ∈ xs, p x = true) (hy : p y = false) :
    (xs ++ y :: ys).dropWhile p = y :: ys := by
  induction xs with
  | nil => simp [List.dropWhile_cons, hy]
  | cons c t ih =>
    rw [List.cons_append, List.dropWhile_cons_of_pos (hall c (by simp))]
    exact ih (fun x hx => hall x (by simp [hx]))

lemma dropWhile_eq_self_of_head (p : Char → Bool) (l : List Char)
    (h : ∀ c, l.head? = some c → p c = false) : l.dropWhile p = l := by
  cases l with
  | nil => rfl
  | cons c t =>
    rw [List.dropWhile_cons_of_neg]
    simp [h c rfl]

lemma pyStrip_eq_self {s : String}
    (hh : ∀ c, s.data.head? = some c → pyWs c = false)
    (hl : ∀ c, s.data.getLast? = some c → pyWs c = false) : pyStrip s = s := by
  unfold pyStrip
  rw [dropWhile_eq_self_of_head _ _ hh]
  rw [dropWhile_eq_self_of_head _ _ (fun c hc => hl c (by rwa [List.head?_reverse] at hc))]
  exact String.ext (by simp)

lemma alnum_not_ws {c : Char} (h : c.isAlphanum = true) : pyWs c = false := by
  by_contra hw
  have hw' : pyWs c = true := by revert hw; cases pyWs c <;> simp
  have hcases : ((((c = ' ' ∨ c = '\t') ∨ c = '\r') ∨ c = '\n') ∨ c = Char.ofNat 11) ∨
      c = Char.ofNat 12 := by
    simpa [pyWs, Char.isWhitespace] using hw'
  rcases hcases with ((((rfl | rfl) | rfl) | rfl) | rfl) | rfl <;> exact absurd h (by decide)

lemma alnum_ne_of_not_alnum {c d : Char} (h : c.isAlphanum = true) (hd : d.isAlphanum = false) :
    c ≠ d := by
  intro e
  rw [e, hd] at h
  cases h

lemma dropWhile_bne_of_mem {l : List Char} {a : Char} (h : a ∈ l) :
    ∃ r, l.dropWhile (fun c => c != a) = a :: r := by
  induction l with
  | nil => cases h
  | cons c t ih =>
    by_cases hc : c = a
    · subst hc
      exact ⟨t, by simp [List.dropWhile_cons]⟩
    · have hb : (c != a) = true := by simp [hc]
      rcases List.mem_cons.mp h with rfl | ht
      · exact absurd rfl hc
      · obtain ⟨r, hr⟩ := ih ht
        exact ⟨r, by simp [List.dropWhile_cons, hb, hr]⟩

lemma testPrefix_data : ("test-" : String).data = ['t', 'e', 's', 't', '-'] := rfl

lemma getLast?_of_ne_nil {l : List Char} (h : l ≠ []) : ∃ d, l.getLast? = some d := by
  cases hx : l.getLast? with
  | none => exact absurd (List.getLast?_eq_none_iff.mp hx) h
  | some d => exact ⟨d, rfl⟩

lemma extract_pos_plain (code : String) (h6 : 6 ≤ code.data.length) (h64 : code.data.length ≤ 64)
    (hall : code.data.all Char.isAlphanum = true) :
    extract_session_from_username ("test-" ++ code) = some code := by
  have hmem : ∀ c ∈ code.data, c.isAlphanum = true := List.all_eq_true.mp hall
  have hne : code.data ≠ [] := by
    intro e
    rw [e] at h6
    exact absurd h6 (by decide)
  have hdata : ("test-" ++ code).data = ['t', 'e', 's', 't', '-'] ++ code.data := by
    rw [String.data_append, testPrefix_data]
  have hstrip : pyStrip ("test-" ++ code) = "test-" ++ code := by
    apply pyStrip_eq_self
    · intro c hc
      rw [hdata] at hc
      simp only [List.cons_append, List.head?_cons, Option.some.injEq] at hc
      subst hc
      decide
    · intro c hc
      rw [hdata, List.getLast?_append] at hc
      obtain ⟨d, hd⟩ := getLast?_of_ne_nil hne
      rw [hd] at hc
      simp only [Option.or_some, Option.some.injEq] at hc
      subst hc
      exact alnum_not_ws (hmem d (List.mem_of_getLast?_eq_some hd))
  have hat : ¬ ('@' ∈ (['t', 'e', 's', 't', '-'] ++ code.data)) := by
    intro hm
    rcases List.mem_append.mp hm with h1 | h2
    · simp at h1
    · exact absurd (hmem '@' h2) (by decide)
  have hln : ¬ (code.data.getLast? = some '\n') := by
    intro e
    exact absurd (hmem '\n' (List.mem_of_getLast?_eq_some e)) (by decide)
  simp only [extract_session_from_username]
  rw [hstrip, hdata, if_neg hat, hdata]
  simp only [List.cons_append, List.nil_append]
  rw [if_neg hln, if_pos ⟨h6, h64, hall⟩]

lemma atSign_data : ("@" : String).data = ['@'] := rfl

lemma pyStrip_shape_at {s : String} {A B : List Char} (hs : s.data = A ++ '@' :: B)
    (hh : ∀ c, (A ++ '@' :: B).head? = some c → pyWs c = false) :
    ∃ w, (pyStrip s).data = A ++ '@' :: w := by
  unfold pyStrip
  rw [show (⟨((s.data.dropWhile pyWs).reverse.dropWhile pyWs).reverse⟩ : String).data
      = ((s.data.dropWhile pyWs).reverse.dropWhile pyWs).reverse from rfl]
  rw [hs, dropWhile_eq_self_of_head _ _ hh]
  rw [List.reverse_append, List.reverse_cons, List.append_assoc, List.singleton_append]
  rw [List.dropWhile_append]
  split
  · refine ⟨[], ?_⟩
    rw [List.dropWhile_cons_of_neg (by decide)]
    simp
  · refine ⟨(B.reverse.dropWhile pyWs).reverse, ?_⟩
    simp

lemma extract_pos_at (code any : String) (h6 : 6 ≤ code.data.length)
    (h64 : code.data.length ≤ 64) (hall : code.data.all Char.isAlphanum = true) :
    extract_session_from_username ("test-" ++ code ++ "@" ++ any) = some code := by
  have hmem : ∀ c ∈ code.data, c.isAlphanum = true := List.all_eq_true.mp hall
  have hdata : ("test-" ++ code ++ "@" ++ any).data =
      (['t', 'e', 's', 't', '-'] ++ code.data) ++ '@' :: any.data := by
    simp [String.data_append, testPrefix_data, atSign_data]
  have hh : ∀ c, ((['t', 'e', 's', 't', '-'] ++ code.data) ++ '@' :: any.data).head? = some c →
      pyWs c = false := by
    intro c hc
    simp only [List.cons_append, List.head?_cons, Option.some.injEq] at hc
    subst hc
    decide
  obtain ⟨w, hw⟩ := pyStrip_shape_at hdata hh
  have hat : '@' ∈ (pyStrip ("test-" ++ code ++ "@" ++ any)).data := by
    rw [hw]
    exact List.mem_append_right _ (by simp)
  have hallA : ∀ x ∈ ['t', 'e', 's', 't', '-'] ++ code.data, (x != '@') = true := by
    intro x hx
    rcases List.mem_append.mp hx with h1 | h2
    · fin_cases h1 <;> decide
    · simpa using alnum_ne_of_not_alnum (hmem x h2) (by decide)
  have hln : ¬ (code.data.getLast? = some '\n') := by
    intro e
    exact absurd (hmem '\n' (List.mem_of_getLast?_eq_some e)) (by decide)
  simp only [extract_session_from_username, if_pos hat]
  rw [hw, takeWhile_append_not _ _ _ _ hallA (by decide)]
  simp only [List.cons_append, List.nil_append]
  rw [if_neg hln, if_pos ⟨h6, h64, hall⟩]

lemma nlData : ("\n" : String).data = ['\n'] := rfl

lemma getLast?_decomp {l : List Char} {a : Char} (h : l.getLast? = some a) :
    l = l.dropLast ++ [a] := by
  cases hr : l.reverse with
  | nil =>
    have he : l = [] := by simpa using congrArg List.reverse hr
    rw [he] at h
    cases h
  | cons b t =>
    have hb : b = a := by
      rw [← List.head?_reverse, hr] at h
      simpa using h
    subst hb
    have hl : l = t.reverse ++ [b] := by
      have := congrArg List.reverse hr
      simpa using this
    rw [hl]
    simp

lemma extract_some_spec {u c : String} (h : extract_session_from_username u = some c) :
    (6 ≤ c.data.length ∧ c.data.length ≤ 64 ∧ c.data.all Char.isAlphanum = true) ∧
    (pyStrip u = "test-" ++ c ∨ pyStrip u = "test-" ++ c ++ "\n" ∨
     (∃ r : String, pyStrip u = "test-" ++ c ++ "@" ++ r) ∨
     (∃ r : String, pyStrip u = "test-" ++ c ++ "\n" ++ "@" ++ r)) := by
  by_cases hat : '@' ∈ (pyStrip u).data
  · simp only [extract_session_from_username, if_pos hat] at h
    split at h
    · rename_i rest heq
      have hsplit := List.takeWhile_append_dropWhile (fun c => c != '@') (pyStrip u).data
      obtain ⟨r, hr⟩ := dropWhile_bne_of_mem hat
      rw [heq, hr] at hsplit
      split at h
      · rename_i hln
        split at h
        · rename_i hcond
          injection h with h
          subst h
          refine ⟨hcond, Or.inr (Or.inr (Or.inr ⟨⟨r⟩, ?_⟩))⟩
          apply String.ext
          rw [← hsplit]
          conv_lhs => rw [getLast?_decomp hln]
          simp [String.data_append, testPrefix_data, atSign_data, nlData]
        · exact absurd h (by simp)
      · rename_i hln
        split at h
        · rename_i hcond
          injection h with h
          subst h
          refine ⟨hcond, Or.inr (Or.inr (Or.inl ⟨⟨r⟩, ?_⟩))⟩
          apply String.ext
          rw [← hsplit]
          simp [String.data_append, testPrefix_data, atSign_data]
        · exact absurd h (by simp)
    · exact absurd h (by simp)
  · simp only [extract_session_from_username, if_neg hat] at h
    split at h
    · rename_i rest heq
      split at h
      · rename_i hln
        split at h
        · rename_i hcond
          injection h with h
          subst h
          refine ⟨hcond, Or.inr (Or.inl ?_)⟩
          apply String.ext
          rw [heq]
          conv_lhs => rw [getLast?_decomp hln]
          simp [String.data_append, testPrefix_data, nlData]
        · exact absurd h (by simp)
      · rename_i hln
        split at h
        · rename_i hcond
          injection h with h
          subst h
          refine ⟨hcond, Or.inl ?_⟩
          apply String.ext
          rw [heq]
          simp [String.data_append, testPrefix_data]
        · exact absurd h (by simp)
    · exact absurd h (by simp)

lemma extract_some_ne_empty {u c : String} (h : extract_session_from_username u = some c) :
    c ≠ "" := by
  intro e
  have h6 := (extract_some_spec h).1.1
  rw [e] at h6
  exact absurd h6 (by decide)

lemma imapStep_t1_state (ci : String) (dec : ModeDecision) (port : Nat) (hsOk : Bool)
    (st : ImapConn) (line : String) (hmode : dec.mode = "t1")
    (evs : List Event) (snt : List String) (st2 : ImapConn)
    (hstep : imapStep ci dec port hsOk st line = .cont evs snt st2 ∨
      imapStep ci dec port hsOk st line = .stop evs snt st2) :
    st2.upgraded = st.upgraded := by
  unfold imapStep at hstep
  rcases hsp : pySplit1 line with _ | ⟨tag, rest1⟩ <;> simp only [hsp] at hstep
  · rcases hstep with h | h
    · cases h; rfl
    · cases h
  · rcases hcl : classifyImap (pyUpper (rest1.headD "")) with _ | _ | _ | _ | _ | _ <;>
      simp only [hcl] at hstep
    case logout => rcases hstep with h | h
                   · cases h
                   · cases h; rfl
    case capability => rcases hstep with h | h
                       · cases h; rfl
                       · cases h
    case starttls =>
      unfold imapStarttlsLine at hstep
      by_cases htls : st.tls = true
      · rw [if_pos htls] at hstep
        rcases hstep with h | h
        · cases h; rfl
        · cases h
      · rw [if_neg htls, if_pos hmode] at hstep
        rcases hstep with h | h
        · cases h; rfl
        · cases h
    case simple => rcases hstep with h | h
                   · cases h; rfl
                   · cases h
    case login =>
      simp only [imapLoginLine] at hstep
      rcases hstep with h | h
      · cases h; rfl
      · cases h
    case other => rcases hstep with h | h
                  · cases h; rfl
                  · cases h

lemma imapLoop_t1_upgraded (ci : String) (dec : ModeDecision) (port : Nat) (hsOk : Bool)
    (hmode : dec.mode = "t1") :
    ∀ (input : List String) (st : ImapConn), st.upgraded = false →
      (imapLoop ci dec port hsOk st input).final.upgraded = false := by
  intro input
  induction input with
  | nil => intro st h; simpa [imapLoop] using h
  | cons line rest ih =>
    intro st h
    rw [imapLoop]
    cases hstep : imapStep ci dec port hsOk st line with
    | cont evs snt st2 =>
      simp only [ImapResult.push]
      exact ih st2 ((imapStep_t1_state ci dec port hsOk st line hmode evs snt st2 (Or.inl hstep)).trans h)
    | stop evs snt st2 =>
      exact (imapStep_t1_state ci dec port hsOk st line hmode evs snt st2 (Or.inr hstep)).trans h

/-! ## Claim theorems -/

/-- Claim C3, divergence theorem: mode resolution propagates a failure of
the persistence step.  On a store holding one expired override, resolving
at time 100 for an unrelated client while the save step fails does not
return a ModeDecision: the exception escapes the resolver, although the
specification requires persistence to be best-effort and never to fail
resolution. -/
theorem decide_mode_save_failure_escapes :
    decide_mode ⟨some "baseline", [⟨some "1.1.1.1", some "t2", some 10, none⟩]⟩ 100 "2.2.2.2" false =
      .error () :=
  rfl

/-- Claim C1, counterexample: with effective mode t4 and TLS active, an
AUTH PLAIN authentication completes with the success reply and the next
command is still served (the NOOP after the AUTH gets its 250 reply), so
the connection is not torn down after the success reply. -/
theorem smtp_t4_auth_plain_no_teardown_counterexample :
    (smtpRun "203.0.113.7" ⟨"t4", "default", none⟩ 587 true true
        ["AUTH PLAIN AGEAYg==", "NOOP"]).sent =
      ["220 selftest ESMTP\r\n", "235 2.7.0 Authentication successful\r\n", "250 2.0.0 OK\r\n"] := by
  decide

/-- Claim C1, amended: only the AUTH LOGIN flow is torn down.  With
effective mode t4 and TLS active, an AUTH LOGIN authentication that
completes with the success reply tears the connection down immediately:
the only reply of the step is the success line, a drop event ends the
event trail, and the remaining input is left unserved. -/
theorem smtp_t4_auth_login_teardown (ci : String) (dec : ModeDecision) (port : Nat) (hsOk : Bool)
    (st : SmtpConn) (u pw : String) (rest : List String)
    (hmode : dec.mode = "t4") (htls : st.tls = true) (hdata : st.inData = false)
    (hpend : st.pendingAuthLogin = true) (huser : st.pendingUser = some u) :
    smtpLoop ci dec port hsOk st (pw :: rest) =
      ⟨(if truthyStr dec.session && truthyStr (sessionOfUsername u) && dec.session != sessionOfUsername u
         then [mismatchEv "smtp" ci dec true port (some u) (sessionOfUsername u)] else []) ++
        [smtpAuthLoginEv ci dec true port u (sessionOfUsername u), smtpDropEv ci dec true port],
       ["235 2.7.0 Authentication successful\r\n"], st, rest⟩ := by
  simp [smtpLoop, smtpStep, smtpPendingLine, hdata, hpend, huser, hmode, htls]

/-- Claim C1, witness: a concrete t4 AUTH LOGIN teardown after the success
reply, with the trailing NOOP left unserved. -/
theorem smtp_t4_auth_login_teardown_witness :
    smtpLoop "203.0.113.7" ⟨"t4", "default", none⟩ 587 true
        { tls := true, pendingAuthLogin := true, pendingUser := some "test-abcdef" }
        ["cGFzc3dvcmQ=", "NOOP"] =
      ⟨[smtpAuthLoginEv "203.0.113.7" ⟨"t4", "default", none⟩ true 587 "test-abcdef" (some "abcdef"),
        smtpDropEv "203.0.113.7" ⟨"t4", "default", none⟩ true 587],
       ["235 2.7.0 Authentication successful\r\n"],
       { tls := true, pendingAuthLogin := true, pendingUser := some "test-abcdef" }, ["NOOP"]⟩ := by
  rw [smtp_t4_auth_login_teardown "203.0.113.7" ⟨"t4", "default", none⟩ 587 true
    { tls := true, pendingAuthLogin := true, pendingUser := some "test-abcdef" }
    "test-abcdef" "cGFzc3dvcmQ=" ["NOOP"] rfl rfl rfl rfl rfl]
  decide

/-- Claim C2, counterexample: under mode t1 the SMTP engine still accepts
STARTTLS, completes the TLS upgrade, and keeps serving commands on the
upgraded channel, so a client that sends STARTTLS anyway does obtain a
completed upgrade. -/
theorem smtp_t1_starttls_upgrade_counterexample :
    (smtpRun "203.0.113.7" ⟨"t1", "default", none⟩ 587 true false
        ["STARTTLS", "NOOP"]).final.upgraded = true ∧
    (smtpRun "203.0.113.7" ⟨"t1", "default", none⟩ 587 true false
        ["STARTTLS", "NOOP"]).sent =
      ["220 selftest ESMTP\r\n", "220 2.0.0 Ready to start TLS\r\n", "250 2.0.0 OK\r\n"] := by
  exact ⟨by decide, by decide⟩

/-- Claim C2, amended: only the IMAP engine enforces the t1 contract on an
explicit STARTTLS command.  Under mode t1 an IMAP connection never
completes a TLS upgrade, whatever the client sends; the SMTP engine, by
contrast, accepts STARTTLS under t1 as the counterexample shows. -/
theorem imap_t1_never_upgrades (ci : String) (dec : ModeDecision) (port : Nat) (hsOk : Bool)
    (tls0 : Bool) (input : List String) (hmode : dec.mode = "t1") :
    (imapRun ci dec port hsOk tls0 input).final.upgraded = false := by
  unfold imapRun
  split
  · rfl
  · simp only [ImapResult.push]
    exact imapLoop_t1_upgraded ci dec port hsOk hmode input { tls := tls0 } rfl

/-- Claim C2, witness: a concrete t1 IMAP run that attempts STARTTLS and
never obtains an upgrade. -/
theorem imap_t1_never_upgrades_witness :
    (imapRun "198.51.100.3" ⟨"t1", "default", none⟩ 143 true false
        ["a1 STARTTLS", "a2 NOOP"]).final.upgraded = false :=
  imap_t1_never_upgrades "198.51.100.3" ⟨"t1", "default", none⟩ 143 true false
    ["a1 STARTTLS", "a2 NOOP"] rfl

/-- Claim C5: round-trip through the mode store.  Writing an override
assigning mode t3 to identity ip with a strictly future expiry (the write
removes prior entries for ip), then resolving for ip at a time before the
expiry, yields mode t3 from the override; resolving at a time after the
expiry yields the default mode of the store. -/
theorem mode_store_roundtrip (data : StoreState) (now ttl t1 t2 : Int) (ip : String)
    (hnow : 0 ≤ now) (httl : 0 < ttl) (ht1 : t1 < now + ttl) (ht2 : now + ttl < t2) :
    (∃ st1, decide_mode (setModeOverride data now ip "t3" ttl) t1 ip true =
        .ok (⟨"t3", "override:" ++ ip, none⟩, st1)) ∧
    (∃ st2, decide_mode (setModeOverride data now ip "t3" ttl) t2 ip true =
        .ok (⟨data.default_mode.getD "baseline", "default", none⟩, st2)) := by
  have hprior : ∀ x ∈ (data.overrides.filter (fun o => decide (now ≤ o.expInt))).filter
      (fun o => o.ip != some ip), (x.ip == some ip) = false := by
    intro x hx
    have := (List.mem_filter.mp hx).2
    simpa using this
  have hfindnone : ∀ t : Int,
      ((((data.overrides.filter (fun o => decide (now ≤ o.expInt))).filter
        (fun o => o.ip != some ip)).filter
          (fun o => decide ¬(o.expInt ≠ 0 ∧ o.expInt < t))).find? (fun o => o.ip == some ip)) = none := by
    intro t
    rw [List.find?_eq_none]
    intro x hx
    have := hprior x (List.mem_filter.mp hx).1
    simp [this]
  have hexp : (Override.mk (some ip) (some "t3") (some (now + ttl)) none).expInt = now + ttl := rfl
  have hres1 : resolveDecision (setModeOverride data now ip "t3" ttl) t1 ip =
      ⟨"t3", "override:" ++ ip, none⟩ := by
    unfold resolveDecision keptOverrides setModeOverride
    rw [List.filter_append, List.find?_append, hfindnone t1]
    have hkeep : (decide ¬((Override.mk (some ip) (some "t3") (some (now + ttl)) none).expInt ≠ 0 ∧
        (Override.mk (some ip) (some "t3") (some (now + ttl)) none).expInt < t1)) = true := by
      rw [decide_eq_true_iff]
      rintro ⟨hx1, hx2⟩
      rw [hexp] at hx2
      omega
    simp only [List.filter_cons, hkeep, List.filter_nil, if_true]
    rw [List.find?_cons_of_pos _ (by simp)]
    simp
  have hres2 : resolveDecision (setModeOverride data now ip "t3" ttl) t2 ip =
      ⟨data.default_mode.getD "baseline", "default", none⟩ := by
    unfold resolveDecision keptOverrides setModeOverride
    rw [List.filter_append, List.find?_append, hfindnone t2]
    have hdrop : (decide ¬((Override.mk (some ip) (some "t3") (some (now + ttl)) none).expInt ≠ 0 ∧
        (Override.mk (some ip) (some "t3") (some (now + ttl)) none).expInt < t2)) = false := by
      rw [decide_eq_false_iff_not]
      intro hcon
      apply hcon
      rw [hexp]
      omega
    simp only [List.filter_cons, hdrop, List.filter_nil, Bool.false_eq_true, if_false]
    simp
  constructor
  · refine ⟨{ setModeOverride data now ip "t3" ttl with
        overrides := keptOverrides (setModeOverride data now ip "t3" ttl) t1 }, ?_⟩
    unfold decide_mode
    rw [if_neg (by simp), hres1]
  · refine ⟨{ setModeOverride data now ip "t3" ttl with
        overrides := keptOverrides (setModeOverride data now ip "t3" ttl) t2 }, ?_⟩
    unfold decide_mode
    rw [if_neg (by simp), hres2]

/-- Claim C5, witness: a concrete store round-trip at times 1200 (before
expiry 1600) and 1700 (after it). -/
theorem mode_store_roundtrip_witness :
    (∃ st1, decide_mode (setModeOverride ⟨some "baseline",
        [Override.mk (some "9.9.9.9") (some "t2") (some 2000) none]⟩ 1000 "5.5.5.5" "t3" 600)
        1200 "5.5.5.5" true = .ok (⟨"t3", "override:" ++ "5.5.5.5", none⟩, st1)) ∧
    (∃ st2, decide_mode (setModeOverride ⟨some "baseline",
        [Override.mk (some "9.9.9.9") (some "t2") (some 2000) none]⟩ 1000 "5.5.5.5" "t3" 600)
        1700 "5.5.5.5" true =
        .ok (⟨(some "baseline").getD "baseline", "default", none⟩, st2)) :=
  mode_store_roundtrip ⟨some "baseline", [Override.mk (some "9.9.9.9") (some "t2") (some 2000) none]⟩
    1000 600 1200 1700 "5.5.5.5" (by decide) (by decide) (by decide) (by decide)

/-- Claim C10: an override whose expires field is 0 or absent is never
treated as expired and never pruned: at every resolution time it survives
the lazy expiry filter, and when it is the assignment for the calling
identity (the store invariant of at most one assignment per identity), it
wins resolution at every time. -/
theorem zero_expiry_override_wins (data : StoreState) (now : Int) (ip : String) (o : Override)
    (ho : o ∈ data.overrides) (hz : o.expInt = 0) :
    o ∈ keptOverrides data now ∧
    (o.ip = some ip → (∀ x ∈ data.overrides, x.ip = some ip → x = o) →
      resolveDecision data now ip = ⟨o.mode.getD "baseline", "override:" ++ ip, o.session⟩) := by
  have hpred : (decide ¬(o.expInt ≠ 0 ∧ o.expInt < now)) = true := by
    rw [decide_eq_true_iff]
    rintro ⟨h1, _⟩
    exact h1 hz
  have hkept : o ∈ keptOverrides data now := by
    unfold keptOverrides
    exact List.mem_filter.mpr ⟨ho, hpred⟩
  refine ⟨hkept, fun hip huniq => ?_⟩
  unfold resolveDecision
  rw [find?_eq_some_of_mem_unique (fun x => x.ip == some ip) (keptOverrides data now) o hkept
    (by simp [hip])
    (fun x hx hpx => huniq x (List.mem_filter.mp hx).1 (by simpa using hpx))]

/-- Claim C10, witness: a concrete store with a single zero-expiry
override; it survives pruning and wins resolution at a very late time. -/
theorem zero_expiry_override_wins_witness :
    Override.mk (some "7.7.7.7") (some "t2") (some 0) (some "AbC123xyz") ∈
      keptOverrides ⟨some "baseline",
        [Override.mk (some "7.7.7.7") (some "t2") (some 0) (some "AbC123xyz")]⟩ 99999999 ∧
    resolveDecision ⟨some "baseline",
        [Override.mk (some "7.7.7.7") (some "t2") (some 0) (some "AbC123xyz")]⟩ 99999999 "7.7.7.7" =
      ⟨(some "t2").getD "baseline", "override:" ++ "7.7.7.7", some "AbC123xyz"⟩ :=
  ⟨(zero_expiry_override_wins ⟨some "baseline",
      [Override.mk (some "7.7.7.7") (some "t2") (some 0) (some "AbC123xyz")]⟩ 99999999 "7.7.7.7"
      (Override.mk (some "7.7.7.7") (some "t2") (some 0) (some "AbC123xyz")) (by decide) (by decide)).1,
   (zero_expiry_override_wins ⟨some "baseline",
      [Override.mk (some "7.7.7.7") (some "t2") (some 0) (some "AbC123xyz")]⟩ 99999999 "7.7.7.7"
      (Override.mk (some "7.7.7.7") (some "t2") (some 0) (some "AbC123xyz")) (by decide) (by decide)).2
     rfl (by decide)⟩

/-- Claim C7, counterexample: the username test-abcdef(newline)@x is not
of the shape test-<code> optionally followed by an at-suffix after
stripping (stripping removes nothing here, and the character before the
at sign is a newline, not part of an alphanumeric code), yet the program
extracts the code abcdef from it: the anchored regex lets the closing
anchor match just before a final newline of the part before the at sign. -/
theorem session_extraction_newline_counterexample :
    extract_session_from_username "test-abcdef\n@x" = some "abcdef" ∧
    pyStrip "test-abcdef\n@x" = "test-abcdef\n@x" ∧
    ("test-abcdef\n@x" : String) ≠ "test-" ++ "abcdef" ∧
    (¬ ∃ r : String, ("test-abcdef\n@x" : String) = "test-" ++ "abcdef" ++ "@" ++ r) := by
  refine ⟨by decide, by decide, by decide, ?_⟩
  rintro ⟨r, hr⟩
  rw [String.ext_iff] at hr
  simp only [String.data_append] at hr
  simp at hr

/-- Claim C7, amended: session extraction, with the regex anchor of the
program made explicit.  For every code of 6 to 64 alphanumeric characters,
the usernames test-code and test-code@anything both extract exactly the
code; conversely any username from which a code is extracted has, after
stripping, the shape test-code or test-code@rest where, as with the
closing anchor of a Python re match, one newline may sit right after the
code (that is, at the very end of the matched part). -/
theorem session_extraction_correct :
    (∀ code any : String,
      6 ≤ code.data.length → code.data.length ≤ 64 → code.data.all Char.isAlphanum = true →
      extract_session_from_username ("test-" ++ code) = some code ∧
      extract_session_from_username ("test-" ++ code ++ "@" ++ any) = some code) ∧
    (∀ u c : String, extract_session_from_username u = some c →
      (6 ≤ c.data.length ∧ c.data.length ≤ 64 ∧ c.data.all Char.isAlphanum = true) ∧
      (pyStrip u = "test-" ++ c ∨ pyStrip u = "test-" ++ c ++ "\n" ∨
       (∃ r : String, pyStrip u = "test-" ++ c ++ "@" ++ r) ∨
       (∃ r : String, pyStrip u = "test-" ++ c ++ "\n" ++ "@" ++ r))) :=
  ⟨fun code any h6 h64 hall =>
    ⟨extract_pos_plain code h6 h64 hall, extract_pos_at code any h6 h64 hall⟩,
   fun _ _ h => extract_some_spec h⟩

/-- Claim C7, witness: concrete extraction of AbC123xyz with and without a
domain suffix, and the reverse direction applied to the newline input. -/
theorem session_extraction_correct_witness :
    (extract_session_from_username ("test-" ++ "AbC123xyz") = some "AbC123xyz" ∧
     extract_session_from_username ("test-" ++ "AbC123xyz" ++ "@" ++ "mail.example.org") =
       some "AbC123xyz") ∧
    ((6 ≤ ("abcdef" : String).data.length ∧ ("abcdef" : String).data.length ≤ 64 ∧
        ("abcdef" : String).data.all Char.isAlphanum = true) ∧
     (pyStrip "test-abcdef\n@x" = "test-" ++ "abcdef" ∨
      pyStrip "test-abcdef\n@x" = "test-" ++ "abcdef" ++ "\n" ∨
      (∃ r : String, pyStrip "test-abcdef\n@x" = "test-" ++ "abcdef" ++ "@" ++ r) ∨
      (∃ r : String, pyStrip "test-abcdef\n@x" = "test-" ++ "abcdef" ++ "\n" ++ "@" ++ r))) :=
  ⟨⟨(session_extraction_correct.1 "AbC123xyz" "mail.example.org"
      (by decide) (by decide) (by decide)).1,
    (session_extraction_correct.1 "AbC123xyz" "mail.example.org"
      (by decide) (by decide) (by decide)).2⟩,
   session_extraction_correct.2 "test-abcdef\n@x" "abcdef" (by decide)⟩

/-- Claim C9: an SMTP AUTH PLAIN whose base64 payload fails to decode,
whether the payload is inline on the AUTH line or supplied on the
continuation line after the empty 334 challenge, extracts no username,
still replies with the success status, emits the auth event with a null
username and null session, and the loop simply continues (the decode
error is absorbed, never raised). -/
theorem smtp_auth_plain_decode_failure :
    (∀ (ci : String) (dec : ModeDecision) (port : Nat) (hsOk : Bool) (st : SmtpConn)
        (line payload : String) (rest : List String),
      st.inData = false → st.pendingAuthLogin = false →
      classifySmtp line = .auth → pySplitWs line = ["AUTH", "PLAIN", payload] →
      b64decode_to_text payload = none →
      smtpLoop ci dec port hsOk st (line :: rest) =
        SmtpResult.push [smtpAuthCommandEv ci dec st.tls port "PLAIN" none none]
          ["235 2.7.0 Authentication successful\r\n"] (smtpLoop ci dec port hsOk st rest)) ∧
    (∀ (ci : String) (dec : ModeDecision) (port : Nat) (hsOk : Bool) (st : SmtpConn)
        (line resp : String) (rest : List String),
      st.inData = false → st.pendingAuthLogin = false →
      classifySmtp line = .auth → pySplitWs line = ["AUTH", "PLAIN"] →
      b64decode_to_text (pyStrip resp) = none →
      smtpLoop ci dec port hsOk st (line :: resp :: rest) =
        SmtpResult.push [] ["334 \r\n"]
          (SmtpResult.push [smtpAuthCommandEv ci dec st.tls port "PLAIN" none none]
            ["235 2.7.0 Authentication successful\r\n"]
            (smtpLoop ci dec port hsOk st rest))) := by
  constructor
  · intro ci dec port hsOk st line payload rest hdata hpend hcls hsplit hdec
    have hplain : pyUpper "PLAIN" = "PLAIN" := by decide
    have huser : smtp_username_from_auth_plain payload = none := by
      unfold smtp_username_from_auth_plain
      rw [hdec]
    simp [smtpLoop, smtpStep, smtpCommandLine, hcls, smtpAuthLine, hsplit, hdata, hpend, hplain,
      huser, smtpAuthEvents, truthyStr]
  · intro ci dec port hsOk st line resp rest hdata hpend hcls hsplit hdec
    have hplain : pyUpper "PLAIN" = "PLAIN" := by decide
    have huser : smtp_username_from_auth_plain (pyStrip resp) = none := by
      unfold smtp_username_from_auth_plain
      rw [hdec]
    have hstep : smtpStep ci dec port hsOk st line = SmtpStep.awaitPlain "PLAIN" := by
      simp [smtpStep, hdata, hpend, smtpCommandLine, hcls, smtpAuthLine, hsplit, hplain]
    simp only [smtpLoop, hstep]
    simp [huser, smtpAuthEvents, truthyStr]

/-- Claim C9, witness: the malformed payload abc (three base64 symbols
ending inside a quad, the incorrect padding error in CPython), inline and
as a continuation line, yields the null-username auth event and a success
reply. -/
theorem smtp_auth_plain_decode_failure_witness :
    (smtpLoop "203.0.113.7" ⟨"baseline", "default", none⟩ 587 true { tls := false }
        ["AUTH PLAIN abc"] =
      SmtpResult.push [smtpAuthCommandEv "203.0.113.7" ⟨"baseline", "default", none⟩ false 587
          "PLAIN" none none]
        ["235 2.7.0 Authentication successful\r\n"]
        (smtpLoop "203.0.113.7" ⟨"baseline", "default", none⟩ 587 true { tls := false } [])) ∧
    (smtpLoop "203.0.113.7" ⟨"baseline", "default", none⟩ 587 true { tls := false }
        ["AUTH PLAIN", "abc"] =
      SmtpResult.push [] ["334 \r\n"]
        (SmtpResult.push [smtpAuthCommandEv "203.0.113.7" ⟨"baseline", "default", none⟩ false 587
            "PLAIN" none none]
          ["235 2.7.0 Authentication successful\r\n"]
          (smtpLoop "203.0.113.7" ⟨"baseline", "default", none⟩ 587 true { tls := false } []))) :=
  ⟨smtp_auth_plain_decode_failure.1 "203.0.113.7" ⟨"baseline", "default", none⟩ 587 true
      { tls := false } "AUTH PLAIN abc" "abc" [] rfl rfl (by decide) (by decide) (by decide),
   smtp_auth_plain_decode_failure.2 "203.0.113.7" ⟨"baseline", "default", none⟩ 587 true
      { tls := false } "AUTH PLAIN" "abc" [] rfl rfl (by decide) (by decide) (by decide)⟩

/-- Claim C6: STARTTLS advertisement.  An EHLO or HELO reply (SMTP) and a
CAPABILITY reply (IMAP) advertise STARTTLS exactly when TLS is not already
active and the effective mode is not t1; the advertisement flag of the
emitted event matches the capability list, and the boolean condition is
exactly that conjunction (so baseline, t2, t3 and t4 all advertise on a
plaintext connection). -/
theorem starttls_advertisement :
    (∀ (ci : String) (dec : ModeDecision) (port : Nat) (hsOk : Bool) (st : SmtpConn)
        (line : String) (rest : List String),
      st.inData = false → st.pendingAuthLogin = false → classifySmtp line = .ehlo →
      smtpLoop ci dec port hsOk st (line :: rest) =
        SmtpResult.push [smtpEhloEv ci dec st.tls port (!st.tls && dec.mode != "t1")]
          [smtpCapsBlob (!st.tls && dec.mode != "t1")] (smtpLoop ci dec port hsOk st rest)) ∧
    (∀ adv : Bool, "250-STARTTLS" ∈ smtpCapsList adv ↔ adv = true) ∧
    (∀ (ci : String) (dec : ModeDecision) (port : Nat) (hsOk : Bool) (st : ImapConn)
        (line tag : String) (rest1 : List String),
      pySplit1 line = tag :: rest1 → classifyImap (pyUpper (rest1.headD "")) = .capability →
      imapStep ci dec port hsOk st line =
        .cont [imapCapabilityEv ci dec st.tls port (!st.tls && dec.mode != "t1")]
          [imapCapsBlob (!st.tls && dec.mode != "t1"), tag ++ " OK CAPABILITY completed\r\n"] st) ∧
    (∀ adv : Bool, "STARTTLS" ∈ imapCapsList adv ↔ adv = true) ∧
    (∀ (tls : Bool) (mode : String), (!tls && mode != "t1") = true ↔ (tls = false ∧ mode ≠ "t1")) := by
  refine ⟨?_, ?_, ?_, ?_, ?_⟩
  · intro ci dec port hsOk st line rest hdata hpend hcls
    simp [smtpLoop, smtpStep, smtpCommandLine, hcls, hdata, hpend]
  · intro adv
    cases adv <;> simp [smtpCapsList]
  · intro ci dec port hsOk st line tag rest1 hsp hcls
    rw [List.headD_eq_head?_getD] at hcls
    simp [imapStep, hsp, hcls]
  · intro adv
    cases adv <;> simp [imapCapsList]
  · intro tls mode
    cases tls <;> simp [bne_iff_ne]

/-- Claim C6, witness: a concrete t3 EHLO on plaintext advertising
STARTTLS, and a concrete IMAP CAPABILITY under t1 not advertising it. -/
theorem starttls_advertisement_witness :
    (smtpLoop "203.0.113.7" ⟨"t3", "default", none⟩ 587 true { tls := false }
        ["EHLO client.example"] =
      SmtpResult.push [smtpEhloEv "203.0.113.7" ⟨"t3", "default", none⟩ false 587
          (!false && ("t3" : String) != "t1")]
        [smtpCapsBlob (!false && ("t3" : String) != "t1")]
        (smtpLoop "203.0.113.7" ⟨"t3", "default", none⟩ 587 true { tls := false } [])) ∧
    (imapStep "198.51.100.3" ⟨"t1", "default", none⟩ 143 true { tls := false } "a9 CAPABILITY" =
      .cont [imapCapabilityEv "198.51.100.3" ⟨"t1", "default", none⟩ false 143
          (!false && ("t1" : String) != "t1")]
        [imapCapsBlob (!false && ("t1" : String) != "t1"), "a9" ++ " OK CAPABILITY completed\r\n"]
        { tls := false }) :=
  ⟨starttls_advertisement.1 "203.0.113.7" ⟨"t3", "default", none⟩ 587 true { tls := false }
      "EHLO client.example" [] rfl rfl (by decide),
   starttls_advertisement.2.2.1 "198.51.100.3" ⟨"t1", "default", none⟩ 143 true { tls := false }
      "a9 CAPABILITY" "a9" ["CAPABILITY"] (by decide) (by decide)⟩

/-- Claim C8: when the resolved mode carries a session and the observed
username encodes a different session code, every authentication flow
(SMTP AUTH LOGIN continuation, SMTP AUTH PLAIN with an inline payload,
SMTP AUTH PLAIN with the payload on the continuation line, IMAP LOGIN)
emits the session-mismatch event immediately before the auth or login
event of that same attempt. -/
theorem session_mismatch_before_auth :
    (∀ (ci : String) (dec : ModeDecision) (port : Nat) (hsOk : Bool) (st : SmtpConn)
        (pw u s1 s2 : String) (rest : List String),
      st.inData = false → st.pendingAuthLogin = true → st.pendingUser = some u →
      dec.session = some s1 → s1 ≠ "" → u ≠ "" →
      extract_session_from_username u = some s2 → s2 ≠ s1 →
      ∃ tailEvs, (smtpLoop ci dec port hsOk st (pw :: rest)).events =
        mismatchEv "smtp" ci dec st.tls port (some u) (some s2) ::
        smtpAuthLoginEv ci dec st.tls port u (some s2) :: tailEvs) ∧
    (∀ (ci : String) (dec : ModeDecision) (port : Nat) (hsOk : Bool) (st : SmtpConn)
        (line payload u s1 s2 : String) (rest : List String),
      st.inData = false → st.pendingAuthLogin = false →
      classifySmtp line = .auth → pySplitWs line = ["AUTH", "PLAIN", payload] →
      smtp_username_from_auth_plain payload = some u → u ≠ "" →
      dec.session = some s1 → s1 ≠ "" →
      extract_session_from_username u = some s2 → s2 ≠ s1 →
      ∃ tailEvs, (smtpLoop ci dec port hsOk st (line :: rest)).events =
        mismatchEv "smtp" ci dec st.tls port (some u) (some s2) ::
        smtpAuthCommandEv ci dec st.tls port "PLAIN" (some u) (some s2) :: tailEvs) ∧
    (∀ (ci : String) (dec : ModeDecision) (port : Nat) (hsOk : Bool) (st : SmtpConn)
        (line resp u s1 s2 : String) (rest : List String),
      st.inData = false → st.pendingAuthLogin = false →
      classifySmtp line = .auth → pySplitWs line = ["AUTH", "PLAIN"] →
      smtp_username_from_auth_plain (pyStrip resp) = some u → u ≠ "" →
      dec.session = some s1 → s1 ≠ "" →
      extract_session_from_username u = some s2 → s2 ≠ s1 →
      ∃ tailEvs, (smtpLoop ci dec port hsOk st (line :: resp :: rest)).events =
        mismatchEv "smtp" ci dec st.tls port (some u) (some s2) ::
        smtpAuthCommandEv ci dec st.tls port "PLAIN" (some u) (some s2) :: tailEvs) ∧
    (∀ (ci : String) (dec : ModeDecision) (port : Nat) (hsOk : Bool) (st : ImapConn)
        (line tag cmd w restc f u s1 s2 : String) (fs : List String),
      pySplit1 line = [tag, cmd] → classifyImap (pyUpper cmd) = .login →
      pySplit1 cmd = [w, restc] → pySplit1 restc = f :: fs →
      strip_quotes f = u → u ≠ "" →
      dec.session = some s1 → s1 ≠ "" →
      extract_session_from_username u = some s2 → s2 ≠ s1 →
      imapStep ci dec port hsOk st line =
        .cont [mismatchEv "imap" ci dec st.tls port (some u) (some s2),
               imapLoginEv ci dec st.tls port (some u) (some s2)]
          [tag ++ " OK Logged in\r\n"] st) := by
  refine ⟨?_, ?_, ?_, ?_⟩
  · intro ci dec port hsOk st pw u s1 s2 rest hdata hpend huser hsess hs1 hu hx hne
    have hsu : sessionOfUsername u = some s2 := by simp [sessionOfUsername, hu, hx]
    have ht1 : truthyStr (some s1) = true := by simpa [truthyStr] using hs1
    have ht2 : truthyStr (some s2) = true := by
      simpa [truthyStr] using extract_some_ne_empty hx
    have hns : s1 ≠ s2 := Ne.symm hne
    by_cases ht4 : (decide (dec.mode = "t4") && st.tls) = true
    · refine ⟨[smtpDropEv ci dec st.tls port], ?_⟩
      simp [smtpLoop, smtpStep, hdata, hpend, smtpPendingLine, huser, hsu, ht1, ht2, hsess,
        hns, ht4]
    · refine ⟨(smtpLoop ci dec port hsOk
        { st with pendingAuthLogin := false, pendingUser := none } rest).events, ?_⟩
      simp [smtpLoop, smtpStep, hdata, hpend, smtpPendingLine, huser, hsu, ht1, ht2, hsess,
        hns, ht4, SmtpResult.push]
  · intro ci dec port hsOk st line payload u s1 s2 rest hdata hpend hcls hsplit hdecu hu hsess
      hs1 hx hne
    have hplain : pyUpper "PLAIN" = "PLAIN" := by decide
    have hsu : sessionOfUsername u = some s2 := by simp [sessionOfUsername, hu, hx]
    have ht1 : truthyStr (some s1) = true := by simpa [truthyStr] using hs1
    have ht2 : truthyStr (some s2) = true := by
      simpa [truthyStr] using extract_some_ne_empty hx
    have hns : s1 ≠ s2 := Ne.symm hne
    refine ⟨(smtpLoop ci dec port hsOk st rest).events, ?_⟩
    simp [smtpLoop, smtpStep, smtpCommandLine, hcls, smtpAuthLine, hsplit, hdata, hpend, hplain,
      hdecu, smtpAuthEvents, hsu, ht1, ht2, hsess, hns, SmtpResult.push]
  · intro ci dec port hsOk st line resp u s1 s2 rest hdata hpend hcls hsplit hdecu hu hsess
      hs1 hx hne
    have hplain : pyUpper "PLAIN" = "PLAIN" := by decide
    have hsu : sessionOfUsername u = some s2 := by simp [sessionOfUsername, hu, hx]
    have ht1 : truthyStr (some s1) = true := by simpa [truthyStr] using hs1
    have ht2 : truthyStr (some s2) = true := by
      simpa [truthyStr] using extract_some_ne_empty hx
    have hns : s1 ≠ s2 := Ne.symm hne
    have hstep : smtpStep ci dec port hsOk st line = SmtpStep.awaitPlain "PLAIN" := by
      simp [smtpStep, hdata, hpend, smtpCommandLine, hcls, smtpAuthLine, hsplit, hplain]
    refine ⟨(smtpLoop ci dec port hsOk st rest).events, ?_⟩
    simp only [smtpLoop, hstep]
    simp [smtpAuthEvents, hdecu, hsu, ht1, ht2, hsess, hns, SmtpResult.push]
  · intro ci dec port hsOk st line tag cmd w restc f u s1 s2 fs hsp hcls hc1 hc2 hquot hu hsess
      hs1 hx hne
    have hsu : sessionOfUsername u = some s2 := by simp [sessionOfUsername, hu, hx]
    have ht1 : truthyStr (some s1) = true := by simpa [truthyStr] using hs1
    have ht2 : truthyStr (some s2) = true := by
      simpa [truthyStr] using extract_some_ne_empty hx
    have hns : s1 ≠ s2 := Ne.symm hne
    simp [imapStep, hsp, hcls, imapLoginLine, hc1, hc2, hquot, hsu, ht1, ht2, hsess, hns]

/-- Claim C8, witness: a concrete IMAP LOGIN with override session
AbC123xyz and username session ZZZ999xyz emits the mismatch event
immediately before the login event, and a concrete AUTH PLAIN
continuation carrying the same mismatching session does too. -/
theorem session_mismatch_before_auth_witness :
    (imapStep "198.51.100.3" ⟨"baseline", "override:1.2.3.4", some "AbC123xyz"⟩ 143 true
        { tls := false } "a1 LOGIN test-ZZZ999xyz secret" =
      .cont [mismatchEv "imap" "198.51.100.3" ⟨"baseline", "override:1.2.3.4", some "AbC123xyz"⟩
               false 143 (some "test-ZZZ999xyz") (some "ZZZ999xyz"),
             imapLoginEv "198.51.100.3" ⟨"baseline", "override:1.2.3.4", some "AbC123xyz"⟩
               false 143 (some "test-ZZZ999xyz") (some "ZZZ999xyz")]
        ["a1" ++ " OK Logged in\r\n"] { tls := false }) ∧
    (∃ tailEvs,
      (smtpLoop "203.0.113.7" ⟨"baseline", "override:1.2.3.4", some "AbC123xyz"⟩ 587 true
          { tls := false } ["AUTH PLAIN", "AHRlc3QtWlpaOTk5eHl6AHB3"]).events =
        mismatchEv "smtp" "203.0.113.7" ⟨"baseline", "override:1.2.3.4", some "AbC123xyz"⟩
            false 587 (some "test-ZZZ999xyz") (some "ZZZ999xyz") ::
          smtpAuthCommandEv "203.0.113.7" ⟨"baseline", "override:1.2.3.4", some "AbC123xyz"⟩
            false 587 "PLAIN" (some "test-ZZZ999xyz") (some "ZZZ999xyz") :: tailEvs) :=
  ⟨session_mismatch_before_auth.2.2.2 "198.51.100.3"
      ⟨"baseline", "override:1.2.3.4", some "AbC123xyz"⟩ 143 true { tls := false }
      "a1 LOGIN test-ZZZ999xyz secret" "a1" "LOGIN test-ZZZ999xyz secret" "LOGIN"
      "test-ZZZ999xyz secret" "test-ZZZ999xyz" "test-ZZZ999xyz" "AbC123xyz" "ZZZ999xyz" ["secret"]
      (by decide) (by decide) (by decide) (by decide) (by decide) (by decide) rfl (by decide)
      (by decide) (by decide),
   session_mismatch_before_auth.2.2.1 "203.0.113.7"
      ⟨"baseline", "override:1.2.3.4", some "AbC123xyz"⟩ 587 true { tls := false }
      "AUTH PLAIN" "AHRlc3QtWlpaOTk5eHl6AHB3" "test-ZZZ999xyz" "AbC123xyz" "ZZZ999xyz" []
      rfl rfl (by decide) (by decide) (by decide) (by decide) rfl (by decide) (by decide)
      (by decide)⟩

lemma auth_plain_username (p : String) (azid usr pwl : List Char)
    (hdec : b64decode_to_text p =
      some ⟨azid ++ Char.ofNat 0 :: (usr ++ Char.ofNat 0 :: pwl)⟩)
    (h1 : ∀ c ∈ azid, c ≠ Char.ofNat 0) (h2 : ∀ c ∈ usr, c ≠ Char.ofNat 0) :
    smtp_username_from_auth_plain p = some ⟨usr⟩ := by
  unfold smtp_username_from_auth_plain
  rw [hdec]
  have hsp : splitOnChar (Char.ofNat 0) (azid ++ Char.ofNat 0 :: (usr ++ Char.ofNat 0 :: pwl)) =
      azid :: usr :: splitOnChar (Char.ofNat 0) pwl := by
    rw [splitOnChar_append _ _ _ h1, splitOnChar_append _ _ _ h2]
  simp only [hsp]
  have hlen : 3 ≤ (azid :: usr :: splitOnChar (Char.ofNat 0) pwl).length := by
    have hnn := splitOnChar_ne_nil (Char.ofNat 0) pwl
    cases hq : splitOnChar (Char.ofNat 0) pwl with
    | nil => exact absurd hq hnn
    | cons a t => simp [hq]
  rw [if_pos hlen]
  rfl

/-- Claim C4: password noninterference.  In every credential-carrying flow
the emitted run is a function of the username alone: the SMTP AUTH LOGIN
password line, the password part of an SMTP AUTH PLAIN payload (inline or
continuation), and the password argument of an IMAP LOGIN command can each
be replaced arbitrarily without changing the emitted events, the replies,
the final state or the leftover input.  Together with the event model,
whose dictionaries carry no password key, no emitted event depends on or
contains the password. -/
theorem events_password_noninterference :
    (∀ (ci : String) (dec : ModeDecision) (port : Nat) (hsOk : Bool) (st : SmtpConn)
        (pw pw' u : String) (rest : List String),
      st.inData = false → st.pendingAuthLogin = true → st.pendingUser = some u →
      smtpLoop ci dec port hsOk st (pw :: rest) = smtpLoop ci dec port hsOk st (pw' :: rest)) ∧
    (∀ (ci : String) (dec : ModeDecision) (port : Nat) (hsOk : Bool) (st : SmtpConn)
        (line line' p p' : String) (azid usr pwl pwl' : List Char) (rest : List String),
      st.inData = false → st.pendingAuthLogin = false →
      classifySmtp line = .auth → classifySmtp line' = .auth →
      pySplitWs line = ["AUTH", "PLAIN", p] → pySplitWs line' = ["AUTH", "PLAIN", p'] →
      b64decode_to_text p = some ⟨azid ++ Char.ofNat 0 :: (usr ++ Char.ofNat 0 :: pwl)⟩ →
      b64decode_to_text p' = some ⟨azid ++ Char.ofNat 0 :: (usr ++ Char.ofNat 0 :: pwl')⟩ →
      (∀ c ∈ azid, c ≠ Char.ofNat 0) → (∀ c ∈ usr, c ≠ Char.ofNat 0) →
      smtpLoop ci dec port hsOk st (line :: rest) = smtpLoop ci dec port hsOk st (line' :: rest)) ∧
    (∀ (ci : String) (dec : ModeDecision) (port : Nat) (hsOk : Bool) (st : SmtpConn)
        (line line' p p' : String) (azid usr pwl pwl' : List Char) (rest : List String),
      st.inData = false → st.pendingAuthLogin = false →
      classifySmtp line = .auth → classifySmtp line' = .auth →
      pySplitWs line = ["AUTH", "PLAIN"] → pySplitWs line' = ["AUTH", "PLAIN"] →
      b64decode_to_text (pyStrip p) =
        some ⟨azid ++ Char.ofNat 0 :: (usr ++ Char.ofNat 0 :: pwl)⟩ →
      b64decode_to_text (pyStrip p') =
        some ⟨azid ++ Char.ofNat 0 :: (usr ++ Char.ofNat 0 :: pwl')⟩ →
      (∀ c ∈ azid, c ≠ Char.ofNat 0) → (∀ c ∈ usr, c ≠ Char.ofNat 0) →
      smtpLoop ci dec port hsOk st (line :: p :: rest) =
        smtpLoop ci dec port hsOk st (line' :: p' :: rest)) ∧
    (∀ (ci : String) (dec : ModeDecision) (port : Nat) (hsOk : Bool) (st : ImapConn)
        (line line' tag cmd cmd' w w' restc restc' f : String) (fs fs' : List String)
        (rest : List String),
      pySplit1 line = [tag, cmd] → pySplit1 line' = [tag, cmd'] →
      classifyImap (pyUpper cmd) = .login → classifyImap (pyUpper cmd') = .login →
      pySplit1 cmd = [w, restc] → pySplit1 cmd' = [w', restc'] →
      pySplit1 restc = f :: fs → pySplit1 restc' = f :: fs' →
      imapLoop ci dec port hsOk st (line :: rest) = imapLoop ci dec port hsOk st (line' :: rest)) := by
  refine ⟨?_, ?_, ?_, ?_⟩
  · intro ci dec port hsOk st pw pw' u rest hdata hpend huser
    have hstep : smtpStep ci dec port hsOk st pw = smtpStep ci dec port hsOk st pw' := by
      simp [smtpStep, hdata, hpend, smtpPendingLine, huser]
    simp only [smtpLoop, hstep]
  · intro ci dec port hsOk st line line' p p' azid usr pwl pwl' rest hdata hpend hcls hcls'
      hsplit hsplit' hdec1 hdec2 h1 h2
    have hplain : pyUpper "PLAIN" = "PLAIN" := by decide
    have hu1 := auth_plain_username p azid usr pwl hdec1 h1 h2
    have hu2 := auth_plain_username p' azid usr pwl' hdec2 h1 h2
    have hstep : smtpStep ci dec port hsOk st line = smtpStep ci dec port hsOk st line' := by
      simp [smtpStep, hdata, hpend, smtpCommandLine, hcls, hcls', smtpAuthLine, hsplit, hsplit',
        hplain, hu1, hu2]
    simp only [smtpLoop, hstep]
  · intro ci dec port hsOk st line line' p p' azid usr pwl pwl' rest hdata hpend hcls hcls'
      hsplit hsplit' hdec1 hdec2 h1 h2
    have hplain : pyUpper "PLAIN" = "PLAIN" := by decide
    have hu1 := auth_plain_username (pyStrip p) azid usr pwl hdec1 h1 h2
    have hu2 := auth_plain_username (pyStrip p') azid usr pwl' hdec2 h1 h2
    have hstep : smtpStep ci dec port hsOk st line = SmtpStep.awaitPlain "PLAIN" := by
      simp [smtpStep, hdata, hpend, smtpCommandLine, hcls, smtpAuthLine, hsplit, hplain]
    have hstep' : smtpStep ci dec port hsOk st line' = SmtpStep.awaitPlain "PLAIN" := by
      simp [smtpStep, hdata, hpend, smtpCommandLine, hcls', smtpAuthLine, hsplit', hplain]
    simp only [smtpLoop, hstep, hstep', hu1, hu2]
  · intro ci dec port hsOk st line line' tag cmd cmd' w w' restc restc' f fs fs' rest
      hsp hsp' hcls hcls' hc1 hc1' hc2 hc2'
    have hstep : imapStep ci dec port hsOk st line = imapStep ci dec port hsOk st line' := by
      simp [imapStep, hsp, hsp', hcls, hcls', imapLoginLine, hc1, hc1', hc2, hc2']
    simp only [imapLoop, hstep]

/-- Claim C4, witness: an SMTP AUTH LOGIN exchange whose password line is
replaced by a different one produces the identical run. -/
theorem events_password_noninterference_witness :
    smtpLoop "203.0.113.7" ⟨"baseline", "default", none⟩ 587 true
        { tls := true, pendingAuthLogin := true, pendingUser := some "test-abcdef" }
        ["aHVudGVyMg==", "NOOP"] =
      smtpLoop "203.0.113.7" ⟨"baseline", "default", none⟩ 587 true
        { tls := true, pendingAuthLogin := true, pendingUser := some "test-abcdef" }
        ["bGV0bWVpbg==", "NOOP"] :=
  events_password_noninterference.1 "203.0.113.7" ⟨"baseline", "default", none⟩ 587 true
    { tls := true, pendingAuthLogin := true, pendingUser := some "test-abcdef" }
    "aHVudGVyMg==" "bGV0bWVpbg==" "test-abcdef" ["NOOP"] rfl rfl rfl
